import Mathlib

/-!
Verification of the `spx-streaming` repository:

* `src/utils/market_hours.py` — US-equity trading-calendar and session logic
  (`MarketHours`), embedded over an explicit Eastern-local date-time model.
* `src/streaming/stream_manager.py` — the rolling-window live-data store
  (`StreamDataManager`), embedded as a pure state-passing model.

Modelling conventions:

* An Eastern-local instant is a pair of an absolute civil day number
  (`daysFromCivil`, the standard civil-calendar day count with epoch
  0000-03-01) and a time of day in seconds since local midnight.  Python's
  `datetime.time` values such as `time(9, 30)` become second counts.
  The pytz UTC→US/Eastern conversion (`utc_to_eastern`,
  `fromtimestamp`) is a timezone-database lookup; incoming timestamps are
  therefore represented directly by the Eastern-local instant they resolve
  to, which is the granularity at which all the session logic operates.
* Python dicts keyed by ticker symbol become association lists
  (`List (String × _)`) with dict-style update (`setKey`): update in place
  for an existing key, append at the end for a new one — matching CPython's
  insertion-ordered dicts.
* `collections.deque(maxlen=n)` becomes a `List` together with `appendCap`,
  which appends on the right and drops from the left beyond capacity.
* The OHLCV payload fields (`open`, `high`, …) are irrelevant to every
  property proved here and are collapsed into a single opaque `payload`
  number used only to distinguish points.
-/

namespace SpxStreaming

/-- Absolute civil day number of a calendar date (days since 0000-03-01,
computed with the standard civil-from-date algorithm).  Valid for the
Gregorian dates appearing in this development (year ≥ 1). -/
def daysFromCivil (y m d : Nat) : Nat :=
  let y1 := if m ≤ 2 then y - 1 else y
  let era := y1 / 400
  let yoe := y1 - era * 400
  let mp := if m > 2 then m - 3 else m + 9
  let doy := (153 * mp + 2) / 5 + d - 1
  let doe := yoe * 365 + yoe / 4 - yoe / 100 + doy
  era * 146097 + doe

/-- Python's `datetime.weekday()` (Monday = 0 … Sunday = 6) of an absolute
day number: day 719468 is 1970-01-01, a Thursday (weekday 3). -/
def pyWeekday (day : Nat) : Nat := (day + 2) % 7

/-- An Eastern-local instant: absolute civil day number plus seconds since
local midnight (`tod < 86400` for instants produced by `datetime`). -/
structure ETDateTime where
  day : Nat
  tod : Nat
deriving DecidableEq, Repr

namespace MarketHours

/-- `MARKET_OPEN = time(9, 30)` as seconds since midnight. -/
def MARKET_OPEN : Nat := 9 * 3600 + 30 * 60

/-- `MARKET_CLOSE = time(16, 0)` as seconds since midnight. -/
def MARKET_CLOSE : Nat := 16 * 3600

/-- `PRE_MARKET_START = time(4, 0)` as seconds since midnight. -/
def PRE_MARKET_START : Nat := 4 * 3600

/-- `AFTER_HOURS_END = time(20, 0)` as seconds since midnight. -/
def AFTER_HOURS_END : Nat := 20 * 3600

/-- `MARKET_HOLIDAYS_2026`: the nine 2026 US stock-market holidays, as
absolute day numbers (the Python list stores midnight datetimes and every
comparison uses `.date()` only). -/
def MARKET_HOLIDAYS_2026 : List Nat :=
  [ daysFromCivil 2026 1 1
  , daysFromCivil 2026 1 19
  , daysFromCivil 2026 2 16
  , daysFromCivil 2026 4 3
  , daysFromCivil 2026 5 25
  , daysFromCivil 2026 7 3
  , daysFromCivil 2026 9 7
  , daysFromCivil 2026 11 26
  , daysFromCivil 2026 12 25 ]

/-- `MarketHours.is_weekend`: Saturday (5) or Sunday (6). -/
def is_weekend (dt : ETDateTime) : Bool := pyWeekday dt.day ≥ 5

/-- `MarketHours.is_market_holiday`: the instant's calendar date equals some
holiday date (date-only comparison). -/
def is_market_holiday (dt : ETDateTime) : Bool :=
  MARKET_HOLIDAYS_2026.contains dt.day

/-- `MarketHours.is_trading_day`: neither a weekend nor a holiday. -/
def is_trading_day (dt : ETDateTime) : Bool :=
  ¬ is_weekend dt ∧ ¬ is_market_holiday dt

/-- `MarketSession` enum from `market_hours.py`. -/
inductive MarketSession where
  | PRE_MARKET
  | REGULAR
  | AFTER_HOURS
  | CLOSED
deriving DecidableEq, Repr

/-- `MarketHours.get_market_session` on an explicit Eastern-local instant:
weekends and holidays are `CLOSED`; otherwise the time of day is compared
against the session boundaries with half-open intervals. -/
def get_market_session (dt : ETDateTime) : MarketSession :=
  if ¬ is_trading_day dt then .CLOSED
  else if PRE_MARKET_START ≤ dt.tod ∧ dt.tod < MARKET_OPEN then .PRE_MARKET
  else if MARKET_OPEN ≤ dt.tod ∧ dt.tod < MARKET_CLOSE then .REGULAR
  else if MARKET_CLOSE ≤ dt.tod ∧ dt.tod < AFTER_HOURS_END then .AFTER_HOURS
  else .CLOSED

/-- `MarketHours.is_market_open`: the session is `REGULAR`. -/
def is_market_open (dt : ETDateTime) : Bool :=
  get_market_session dt = MarketSession.REGULAR

/-- The forward scan of `MarketHours._get_next_market_open`
(`for _ in range(10)`), stepping one day at a time from `current` and
returning the first trading day's open instant. -/
def nextOpenScan (current : ETDateTime) : Nat → Option ETDateTime
  | 0 => none
  | fuel + 1 =>
    let next : ETDateTime := ⟨current.day + 1, current.tod⟩
    if is_trading_day next then some ⟨next.day, MARKET_OPEN⟩
    else nextOpenScan next fuel

/-- `MarketHours._get_next_market_open`: today's open when the instant is
before the open on a trading day, otherwise a 10-day-bounded forward scan;
`none` models Python's `return None` fallthrough. -/
def get_next_market_open (from_dt : ETDateTime) : Option ETDateTime :=
  if from_dt.tod < MARKET_OPEN ∧ is_trading_day from_dt then
    some ⟨from_dt.day, MARKET_OPEN⟩
  else
    nextOpenScan from_dt 10

end MarketHours

/-- A point as stored inside a ticker's rolling window.  The dict stored by
the Python code also carries the raw incoming `timestamp`, but every read
copies `timestamp_et` over `timestamp` before use, so only `timestamp_et`,
the `is_preloaded` marker and the opaque OHLCV payload are retained. -/
structure StoredPoint where
  timestamp_et : Option ETDateTime
  is_preloaded : Bool
  payload : Nat
deriving DecidableEq, Repr

/-- One row of the historical `DataFrame` handed to
`preload_historical_data`: its `timestamp` column (`row.get('timestamp')`,
`none` when missing) and the opaque OHLCV payload. -/
structure Bar where
  timestamp : Option ETDateTime
  payload : Nat
deriving DecidableEq, Repr

/-- An incoming live-data dict for `add_data_point`.  `timestamp` is the
epoch-millisecond field, represented by the Eastern instant it resolves to
(`none` when the key is absent or falsy); `timestamp_et` is a pre-existing
`timestamp_et` entry, if the caller supplied one. -/
structure InPoint where
  timestamp : Option ETDateTime
  timestamp_et : Option ETDateTime
  payload : Nat
deriving DecidableEq, Repr

/-- `preload_historical_data`'s conversion of a DataFrame row into the
stored dict: `timestamp_et` is a copy of the row's `timestamp`, and the
point is tagged `is_preloaded = True`. -/
def storedOfBar (r : Bar) : StoredPoint := ⟨r.timestamp, true, r.payload⟩

/-- The timestamp-conversion step of `add_data_point`: when the incoming
`timestamp` field is present it is converted to Eastern time and written
into `timestamp_et`, otherwise the dict is left as it is. -/
def mergeTs (p : InPoint) : InPoint :=
  match p.timestamp with
  | some ts => { p with timestamp_et := some ts }
  | none => p

/-- The dict stored by `add_data_point` (after `mergeTs`): tagged
`is_preloaded = False`. -/
def storedOfLive (p : InPoint) : StoredPoint := ⟨p.timestamp_et, false, p.payload⟩

/-- Dict-style update on an association list: replace the value of an
existing key in place, or append the new key at the end (CPython dicts are
insertion-ordered). -/
def setKey (m : List (String × α)) (k : String) (v : α) : List (String × α) :=
  match m with
  | [] => [(k, v)]
  | (k1, v1) :: rest => if k1 == k then (k, v) :: rest else (k1, v1) :: setKey rest k v

/-- `deque(maxlen=cap).append`: append on the right, dropping from the left
whatever exceeds the capacity. -/
def appendCap (cap : Nat) (buf : List α) (x : α) : List α :=
  let ys := buf ++ [x]
  ys.drop (ys.length - cap)

/-- The state of a `StreamDataManager` instance. -/
structure StreamDataManager where
  max_points : Nat
  data_buffers : List (String × List StoredPoint)
  total_messages : Nat
  messages_per_ticker : List (String × Nat)
  preloaded_tickers : List String
deriving DecidableEq, Repr

namespace StreamDataManager

/-- `StreamDataManager.__init__` (default `max_points = 600`). -/
def init (max_points : Nat := 600) : StreamDataManager :=
  ⟨max_points, [], 0, [], []⟩

/-- The buffer-creation step shared by `preload_historical_data` and
`add_data_point`: when the ticker has no buffer yet, install an empty deque
and a zero message counter. -/
def ensureTicker (s : StreamDataManager) (t : String) : StreamDataManager :=
  if (s.data_buffers.lookup t).isSome then s
  else { s with data_buffers := setKey s.data_buffers t [],
                messages_per_ticker := setKey s.messages_per_ticker t 0 }

/-- `StreamDataManager.preload_historical_data`: append every row of the
DataFrame to the ticker's deque (tagged preloaded, no session gate), then
append the ticker to `preloaded_tickers`. -/
def preload_historical_data (s : StreamDataManager) (t : String) (df : List Bar) :
    StreamDataManager :=
  let s1 := ensureTicker s t
  let buf := (s1.data_buffers.lookup t).getD []
  let buf1 := df.foldl (fun b r => appendCap s1.max_points b (storedOfBar r)) buf
  { s1 with data_buffers := setKey s1.data_buffers t buf1,
            preloaded_tickers := s1.preloaded_tickers ++ [t] }

/-- The market-hours gate of `add_data_point`: after the timestamp
conversion, a point is dropped exactly when it carries a `timestamp_et`
classifying outside regular hours; a point with no timestamp at all is not
gated. -/
def gateDrops (data : InPoint) : Bool :=
  match (mergeTs data).timestamp_et with
  | some ts => ! MarketHours.is_market_open ts
  | none => false

/-- `StreamDataManager.add_data_point`: ensure the buffer exists, convert
the incoming timestamp, drop the point when a `timestamp_et` is present and
classifies outside regular hours, otherwise store it (tagged live) and bump
both message counters. -/
def add_data_point (s : StreamDataManager) (t : String) (data : InPoint) :
    StreamDataManager :=
  let s1 := ensureTicker s t
  let d := mergeTs data
  if gateDrops data then s1
  else
    { s1 with
      data_buffers :=
        setKey s1.data_buffers t
          (appendCap s1.max_points ((s1.data_buffers.lookup t).getD []) (storedOfLive d)),
      messages_per_ticker :=
        setKey s1.messages_per_ticker t ((s1.messages_per_ticker.lookup t).getD 0 + 1),
      total_messages := s1.total_messages + 1 }

/-- The timestamp order used by `df.sort_values('timestamp')` on the frame
read back from a buffer (after `timestamp` has been overwritten with
`timestamp_et`): lexicographic on (day, time of day), missing values last. -/
def etLe (a b : ETDateTime) : Bool :=
  decide (a.day < b.day ∨ (a.day = b.day ∧ a.tod ≤ b.tod))

/-- `tsLe`: the sort key of `get_dataframe`, lifted to optional timestamps
(`none`, pandas `NaT`, sorts last). -/
def tsLe : Option ETDateTime → Option ETDateTime → Bool
  | some a, some b => etLe a b
  | some _, none => true
  | none, some _ => false
  | none, none => true

/-- The point ordering used by `get_dataframe`'s `sort_values`. -/
def tsRel (a b : StoredPoint) : Prop :=
  tsLe a.timestamp_et b.timestamp_et = true

instance instDecTsRel : DecidableRel tsRel :=
  fun a b => instDecidableEqBool (tsLe a.timestamp_et b.timestamp_et) true

/-- `StreamDataManager.get_dataframe`: a fresh list of the window contents
(with `timestamp` overwritten by `timestamp_et`), sorted ascending by that
timestamp (a comparison sort, modelled by stable insertion sort); an
unknown ticker yields the empty frame. -/
def get_dataframe (s : StreamDataManager) (t : String) : List StoredPoint :=
  match s.data_buffers.lookup t with
  | none => []
  | some buf => List.insertionSort tsRel buf

/-- `StreamDataManager.get_latest_point`: the last element of the window,
`none` for an unknown ticker or an empty window. -/
def get_latest_point (s : StreamDataManager) (t : String) : Option StoredPoint :=
  match s.data_buffers.lookup t with
  | none => none
  | some buf => buf.getLast?

/-- `StreamDataManager.get_buffer_size`: the window length, 0 for an
unknown ticker. -/
def get_buffer_size (s : StreamDataManager) (t : String) : Nat :=
  match s.data_buffers.lookup t with
  | none => 0
  | some buf => buf.length

/-- `StreamDataManager.is_buffer_full`. -/
def is_buffer_full (s : StreamDataManager) (t : String) : Bool :=
  s.get_buffer_size t ≥ s.max_points

/-- The dict returned by `get_buffer_status`.  `preloaded_count` is an
`Option` because the unknown-ticker branch of the Python code returns a
dict without that key. -/
structure BufferStatus where
  size : Nat
  max : Nat
  percentage : Nat
  is_full : Bool
  preloaded : Bool
  preloaded_count : Option Nat
  live_count : Nat
deriving DecidableEq, Repr

/-- `StreamDataManager.get_buffer_status`.  `percentage` is
`int(size / max_points * 100)`, i.e. truncating division (the model uses
exact natural division; `max_points = 0` would raise in Python and is
outside every claim). -/
def get_buffer_status (s : StreamDataManager) (t : String) : BufferStatus :=
  match s.data_buffers.lookup t with
  | none => ⟨0, s.max_points, 0, false, false, none, 0⟩
  | some buf =>
    let preloaded_count := buf.countP (fun d => d.is_preloaded)
    ⟨buf.length, s.max_points, buf.length * 100 / s.max_points,
     decide (buf.length ≥ s.max_points),
     s.preloaded_tickers.contains t,
     some preloaded_count,
     buf.length - preloaded_count⟩

/-- `StreamDataManager.clear_ticker`: empty the ticker's deque in place
(the dict key survives) and `list.remove` the ticker from
`preloaded_tickers` — which removes only the first occurrence. -/
def clear_ticker (s : StreamDataManager) (t : String) : StreamDataManager :=
  { s with
    data_buffers :=
      if (s.data_buffers.lookup t).isSome then setKey s.data_buffers t []
      else s.data_buffers,
    preloaded_tickers :=
      if s.preloaded_tickers.contains t then s.preloaded_tickers.erase t
      else s.preloaded_tickers }

/-- `StreamDataManager.clear_all`: drop every buffer, counter and preload
mark. -/
def clear_all (s : StreamDataManager) : StreamDataManager :=
  { s with data_buffers := [], messages_per_ticker := [],
           preloaded_tickers := [], total_messages := 0 }

/-- The dict returned by `get_statistics`. -/
structure Statistics where
  total_messages : Nat
  active_tickers : Nat
  messages_per_ticker : List (String × Nat)
  buffer_sizes : List (String × Nat)
  preloaded_tickers : List String
deriving DecidableEq, Repr

/-- `StreamDataManager.get_statistics`. -/
def get_statistics (s : StreamDataManager) : Statistics :=
  ⟨s.total_messages, s.data_buffers.length, s.messages_per_ticker,
   s.data_buffers.map (fun kv => (kv.1, kv.2.length)), s.preloaded_tickers⟩

end StreamDataManager

namespace MarketHours

/-- Spec-side transcription (for comparison with `is_trading_day`) of
"non-weekend, non-holiday date", as a predicate on the calendar date
alone. -/
def tradingDate (day : Nat) : Bool :=
  ! (pyWeekday day ≥ 5) && ! (MARKET_HOLIDAYS_2026.contains day)

/-- Spec-side transcription of the session-classification sentence, for
comparison with `get_market_session`: `CLOSED` when the Eastern-local date
is a Saturday, a Sunday or a holiday-list date, otherwise the half-open
boundary intervals in order, and `CLOSED` past all of them. -/
def sessionSpec (dt : ETDateTime) : MarketSession :=
  if pyWeekday dt.day = 5 ∨ pyWeekday dt.day = 6 ∨ dt.day ∈ MARKET_HOLIDAYS_2026 then
    .CLOSED
  else if PRE_MARKET_START ≤ dt.tod ∧ dt.tod < MARKET_OPEN then .PRE_MARKET
  else if MARKET_OPEN ≤ dt.tod ∧ dt.tod < MARKET_CLOSE then .REGULAR
  else if MARKET_CLOSE ≤ dt.tod ∧ dt.tod < AFTER_HOURS_END then .AFTER_HOURS
  else .CLOSED

/-- Spec-side transcription of the next-open sentence, for comparison with
`get_next_market_open`: today's open when before it on a trading day,
otherwise the open instant of the first trading date among the next 10
calendar dates, and `none` when there is no such date. -/
def nextOpenSpec (dt : ETDateTime) : Option ETDateTime :=
  if is_trading_day dt ∧ dt.tod < MARKET_OPEN then some ⟨dt.day, MARKET_OPEN⟩
  else
    ((List.range 10).find? fun i => tradingDate (dt.day + 1 + i)).map
      fun i => (⟨dt.day + 1 + i, MARKET_OPEN⟩ : ETDateTime)

end MarketHours

/-- The last `cap` elements of a list (all of it when shorter): the
contents of a capacity-`cap` deque after appending the whole list. -/
def takeRight (cap : Nat) (l : List α) : List α :=
  l.drop (l.length - cap)

namespace StreamDataManager

/-- The contents of a ticker's window, empty when the ticker has no
buffer. -/
def bufferOf (s : StreamDataManager) (t : String) : List StoredPoint :=
  (s.data_buffers.lookup t).getD []

/-- The per-ticker message count, zero when the ticker has no counter. -/
def countOf (s : StreamDataManager) (t : String) : Nat :=
  (s.messages_per_ticker.lookup t).getD 0

/-- States reachable by the Python code never hold a message counter for a
ticker without a buffer (`__init__` creates none, buffer and counter are
created together, and `clear_all` drops both). -/
def consistentAt (s : StreamDataManager) (t : String) : Prop :=
  s.data_buffers.lookup t = none → s.messages_per_ticker.lookup t = none

/-- Strictly-increasing timestamp order on stored points (used to state
when a read returns the window in unchanged order). -/
def tsLtRel (a b : StoredPoint) : Prop :=
  tsLe b.timestamp_et a.timestamp_et = false

instance instDecTsLtRel : DecidableRel tsLtRel :=
  fun a b => instDecidableEqBool (tsLe b.timestamp_et a.timestamp_et) false

/-- One write call against a fixed symbol: a bulk historical preload or a
single live point. -/
inductive Op where
  | preload (df : List Bar)
  | add (data : InPoint)
deriving DecidableEq, Repr

/-- Run one write call on the manager state. -/
def applyOp (t : String) (s : StreamDataManager) : Op → StreamDataManager
  | .preload df => s.preload_historical_data t df
  | .add data => s.add_data_point t data

/-- The points a write call stores (before capacity eviction): every bar of
a preload, and a live point exactly when no Eastern timestamp classifies it
outside regular hours. -/
def admits : Op → List StoredPoint
  | .preload df => df.map storedOfBar
  | .add data => if gateDrops data then [] else [storedOfLive (mergeTs data)]

/-- All points stored by a call sequence, in call order. -/
def admitsAll : List Op → List StoredPoint
  | [] => []
  | op :: ops => admits op ++ admitsAll ops

end StreamDataManager

/-! ### Deque lemmas -/

theorem takeRight_eq_rtake (cap : Nat) (l : List α) :
    takeRight cap l = List.rtake l cap := rfl

theorem length_takeRight (cap : Nat) (l : List α) :
    (takeRight cap l).length = min l.length cap := by
  simp only [takeRight, List.length_drop]
  omega

theorem takeRight_eq_self {cap : Nat} {l : List α} (h : l.length ≤ cap) :
    takeRight cap l = l := by
  simp [takeRight, Nat.sub_eq_zero_of_le h]

theorem take_append_take_absorb (n : Nat) (a b : List α) :
    (a ++ b.take n).take n = (a ++ b).take n := by
  rw [List.take_append_eq_append_take, List.take_append_eq_append_take, List.take_take]
  congr 1
  exact congrArg b.take (Nat.min_eq_left (Nat.sub_le n a.length))

theorem takeRight_append_absorb (cap : Nat) (l m : List α) :
    takeRight cap (takeRight cap l ++ m) = takeRight cap (l ++ m) := by
  simp only [takeRight_eq_rtake, List.rtake_eq_reverse_take_reverse, List.reverse_append,
    List.reverse_reverse]
  rw [take_append_take_absorb]

theorem appendCap_eq_takeRight (cap : Nat) (b : List α) (x : α) :
    appendCap cap b x = takeRight cap (b ++ [x]) := rfl

theorem foldl_appendCap (cap : Nat) :
    ∀ (xs : List α) (l : List α),
      xs.foldl (appendCap cap) (takeRight cap l) = takeRight cap (l ++ xs)
  | [], l => by simp
  | x :: xs, l => by
    rw [List.foldl_cons, appendCap_eq_takeRight, takeRight_append_absorb,
      foldl_appendCap cap xs (l ++ [x])]
    simp

/-! ### Association-list lemmas -/

theorem lookup_setKey_self (m : List (String × α)) (k : String) (v : α) :
    (setKey m k v).lookup k = some v := by
  induction m with
  | nil => simp [setKey, List.lookup_cons]
  | cons kv rest ih =>
    obtain ⟨k1, v1⟩ := kv
    by_cases h : k1 = k
    · subst h
      simp [setKey, List.lookup_cons]
    · have hb1 : (k1 == k) = false := beq_eq_false_iff_ne.mpr h
      have hb2 : (k == k1) = false := beq_eq_false_iff_ne.mpr fun hh => h hh.symm
      simp [setKey, List.lookup_cons, hb1, hb2, ih]

theorem lookup_setKey_ne (m : List (String × α)) {k k' : String} (v : α) (h : k' ≠ k) :
    (setKey m k v).lookup k' = m.lookup k' := by
  induction m with
  | nil =>
    have hb : (k' == k) = false := beq_eq_false_iff_ne.mpr h
    simp [setKey, List.lookup_cons, hb]
  | cons kv rest ih =>
    obtain ⟨k1, v1⟩ := kv
    by_cases h1 : k1 = k
    · subst h1
      have hb : (k' == k1) = false := beq_eq_false_iff_ne.mpr h
      simp [setKey, List.lookup_cons, hb]
    · have hb1 : (k1 == k) = false := beq_eq_false_iff_ne.mpr h1
      cases hc : (k' == k1) <;> simp [setKey, List.lookup_cons, hb1, hc, ih]

theorem setKey_of_lookup_none {m : List (String × α)} {k : String} (v : α)
    (h : m.lookup k = none) : setKey m k v = m ++ [(k, v)] := by
  induction m with
  | nil => simp [setKey]
  | cons kv rest ih =>
    obtain ⟨k1, v1⟩ := kv
    rw [List.lookup_cons] at h
    cases hc : (k == k1) with
    | true => rw [hc] at h; simp at h
    | false =>
      rw [hc] at h
      have hb : (k1 == k) = false := by
        refine beq_eq_false_iff_ne.mpr fun hh => ?_
        rw [hh, beq_self_eq_true] at hc
        simp at hc
      simp [setKey, hb, ih h]

theorem length_setKey_of_lookup_none {m : List (String × α)} {k : String} (v : α)
    (h : m.lookup k = none) : (setKey m k v).length = m.length + 1 := by
  rw [setKey_of_lookup_none v h]
  simp

namespace StreamDataManager

/-! ### Preservation lemmas for the manager operations -/

theorem ensureTicker_max_points (s : StreamDataManager) (t : String) :
    (ensureTicker s t).max_points = s.max_points := by
  unfold ensureTicker
  split <;> rfl

theorem ensureTicker_bufferOf (s : StreamDataManager) (t : String) :
    (ensureTicker s t).bufferOf t = s.bufferOf t := by
  unfold ensureTicker
  split
  · rfl
  · next h =>
    have h1 : s.data_buffers.lookup t = none := by
      cases hx : s.data_buffers.lookup t <;> simp [hx] at h ⊢
    simp [bufferOf, lookup_setKey_self, h1]

theorem ensureTicker_preloaded (s : StreamDataManager) (t : String) :
    (ensureTicker s t).preloaded_tickers = s.preloaded_tickers := by
  unfold ensureTicker
  split <;> rfl

theorem ensureTicker_total (s : StreamDataManager) (t : String) :
    (ensureTicker s t).total_messages = s.total_messages := by
  unfold ensureTicker
  split <;> rfl

theorem preload_max_points (s : StreamDataManager) (t : String) (df : List Bar) :
    (s.preload_historical_data t df).max_points = s.max_points := by
  unfold preload_historical_data
  exact ensureTicker_max_points s t

theorem add_max_points (s : StreamDataManager) (t : String) (data : InPoint) :
    (s.add_data_point t data).max_points = s.max_points := by
  simp only [add_data_point]
  split <;> simp [ensureTicker_max_points]

theorem applyOp_max_points (t : String) (s : StreamDataManager) (op : Op) :
    (applyOp t s op).max_points = s.max_points := by
  cases op with
  | preload df => exact preload_max_points s t df
  | add data => exact add_max_points s t data

/-! ### Effect of the write operations on the target window -/

theorem preload_bufferOf_self (s : StreamDataManager) (t : String) (df : List Bar)
    (b0 : List StoredPoint) (h : s.bufferOf t = takeRight s.max_points b0) :
    (s.preload_historical_data t df).bufferOf t
      = takeRight s.max_points (b0 ++ df.map storedOfBar) := by
  have hstart : (List.lookup t (s.ensureTicker t).data_buffers).getD []
      = takeRight s.max_points b0 := by
    simpa [bufferOf] using (ensureTicker_bufferOf s t).trans h
  simp only [preload_historical_data, bufferOf, lookup_setKey_self, Option.getD_some,
    ensureTicker_max_points]
  rw [hstart, ← List.foldl_map]
  exact foldl_appendCap _ _ _

theorem add_bufferOf_self (s : StreamDataManager) (t : String) (data : InPoint)
    (b0 : List StoredPoint) (h : s.bufferOf t = takeRight s.max_points b0) :
    (s.add_data_point t data).bufferOf t
      = takeRight s.max_points (b0 ++ admits (.add data)) := by
  have hstart : (List.lookup t (s.ensureTicker t).data_buffers).getD []
      = takeRight s.max_points b0 := by
    simpa [bufferOf] using (ensureTicker_bufferOf s t).trans h
  cases hg : gateDrops data with
  | false =>
    simp only [add_data_point, hg, Bool.false_eq_true, if_false, bufferOf,
      lookup_setKey_self, Option.getD_some, ensureTicker_max_points, admits]
    rw [hstart, appendCap_eq_takeRight, takeRight_append_absorb]
  | true =>
    simp only [add_data_point, hg, if_true, admits, List.append_nil]
    exact (ensureTicker_bufferOf s t).trans h

theorem applyOp_bufferOf_self (t : String) (s : StreamDataManager) (op : Op)
    (b0 : List StoredPoint) (h : s.bufferOf t = takeRight s.max_points b0) :
    (applyOp t s op).bufferOf t = takeRight s.max_points (b0 ++ admits op) := by
  cases op with
  | preload df => exact preload_bufferOf_self s t df b0 h
  | add data => exact add_bufferOf_self s t data b0 h

theorem runOps_bufferOf (t : String) :
    ∀ (ops : List Op) (s : StreamDataManager) (b0 : List StoredPoint),
      s.bufferOf t = takeRight s.max_points b0 →
      (ops.foldl (applyOp t) s).bufferOf t
        = takeRight s.max_points (b0 ++ admitsAll ops)
  | [], s, b0, h => by simpa [admitsAll] using h
  | op :: ops, s, b0, h => by
    rw [List.foldl_cons]
    have hstep := applyOp_bufferOf_self t s op b0 h
    rw [← applyOp_max_points t s op] at hstep ⊢
    rw [runOps_bufferOf t ops (applyOp t s op) (b0 ++ admits op) hstep]
    simp [admitsAll, List.append_assoc]

theorem runOps_max_points (t : String) :
    ∀ (ops : List Op) (s : StreamDataManager),
      (ops.foldl (applyOp t) s).max_points = s.max_points
  | [], _ => rfl
  | op :: ops, s => by
    rw [List.foldl_cons, runOps_max_points t ops, applyOp_max_points]

theorem get_buffer_size_eq_length_bufferOf (s : StreamDataManager) (t : String) :
    s.get_buffer_size t = (s.bufferOf t).length := by
  cases hx : s.data_buffers.lookup t <;> simp [get_buffer_size, bufferOf, hx]

end StreamDataManager

open StreamDataManager MarketHours

/-- C1: for every symbol and every sequence of `preload_historical_data` /
`add_data_point` calls on that symbol, after each call the window holds
exactly the most recent `max_points` (or fewer) of the points those calls
stored, in call order with the oldest evicted first, and its size never
exceeds `max_points`. -/
theorem C1_window_capacity_fifo (cap : Nat) (t : String) (ops : List Op) :
    (ops.foldl (applyOp t) (init cap)).bufferOf t = takeRight cap (admitsAll ops)
      ∧ (ops.foldl (applyOp t) (init cap)).get_buffer_size t ≤ cap := by
  have h0 : (init cap).bufferOf t = takeRight (init cap).max_points [] := by
    simp [init, bufferOf, takeRight]
  have h1 := runOps_bufferOf t ops (init cap) [] h0
  have h2 : (ops.foldl (applyOp t) (init cap)).bufferOf t = takeRight cap (admitsAll ops) := by
    simpa [init] using h1
  refine ⟨h2, ?_⟩
  rw [get_buffer_size_eq_length_bufferOf, h2, length_takeRight]
  omega

theorem is_trading_day_mk (d x y : Nat) :
    is_trading_day ⟨d, x⟩ = is_trading_day ⟨d, y⟩ := rfl

theorem is_trading_day_iff_spec (dt : ETDateTime) :
    is_trading_day dt = true
      ↔ ¬(pyWeekday dt.day = 5 ∨ pyWeekday dt.day = 6 ∨ dt.day ∈ MARKET_HOLIDAYS_2026) := by
  have h7 : pyWeekday dt.day < 7 := Nat.mod_lt _ (by omega)
  simp only [is_trading_day, is_weekend, is_market_holiday, decide_eq_true_eq, not_or,
    List.contains, List.elem_iff]
  constructor
  · rintro ⟨hw, hh⟩
    exact ⟨by omega, by omega, hh⟩
  · rintro ⟨h5, h6, hh⟩
    exact ⟨by omega, hh⟩

/-- C2: `get_market_session` classifies every instant exactly as the spec
sentence says — `CLOSED` on Saturdays, Sundays and holiday-list dates
(date-only comparison), otherwise through the half-open boundary intervals
`[PRE_MARKET_START, MARKET_OPEN) → PRE_MARKET`,
`[MARKET_OPEN, MARKET_CLOSE) → REGULAR`,
`[MARKET_CLOSE, AFTER_HOURS_END) → AFTER_HOURS`, else `CLOSED`; and on a
trading day the instant at exactly the market-open time is `REGULAR` while
the instant one second before is `PRE_MARKET`. -/
theorem C2_session_classification :
    (∀ dt : ETDateTime, get_market_session dt = sessionSpec dt)
      ∧ ∀ dt : ETDateTime, is_trading_day dt = true →
          get_market_session ⟨dt.day, MARKET_OPEN⟩ = MarketSession.REGULAR
            ∧ get_market_session ⟨dt.day, MARKET_OPEN - 1⟩ = MarketSession.PRE_MARKET := by
  constructor
  · intro dt
    by_cases hC : is_trading_day dt = true
    · rw [get_market_session, sessionSpec, if_neg (by simpa using hC),
        if_neg ((is_trading_day_iff_spec dt).mp hC)]
    · rw [get_market_session, sessionSpec, if_pos (by simpa using hC),
        if_pos (by
          have := (is_trading_day_iff_spec dt).not.mp hC
          exact not_not.mp this)]
  · intro dt htrade
    have h1 : is_trading_day (⟨dt.day, MARKET_OPEN⟩ : ETDateTime) = true := htrade
    have h2 : is_trading_day (⟨dt.day, MARKET_OPEN - 1⟩ : ETDateTime) = true := htrade
    constructor
    · rw [get_market_session, if_neg (by simp [h1])]
      norm_num [MARKET_OPEN, MARKET_CLOSE, PRE_MARKET_START]
    · rw [get_market_session, if_neg (by simp [h2])]
      norm_num [MARKET_OPEN, PRE_MARKET_START]

/-- Witness for C2 at Friday 2026-01-30: a trading day, where the open
instant classifies `REGULAR` and one second before classifies
`PRE_MARKET`. -/
theorem C2_session_classification_witness :
    is_trading_day ⟨daysFromCivil 2026 1 30, 0⟩ = true
      ∧ get_market_session ⟨daysFromCivil 2026 1 30, MARKET_OPEN⟩ = MarketSession.REGULAR
      ∧ get_market_session ⟨daysFromCivil 2026 1 30, MARKET_OPEN - 1⟩
          = MarketSession.PRE_MARKET :=
  ⟨by decide,
   (C2_session_classification.2 ⟨daysFromCivil 2026 1 30, 0⟩ (by decide)).1,
   (C2_session_classification.2 ⟨daysFromCivil 2026 1 30, 0⟩ (by decide)).2⟩

theorem is_trading_day_eq_tradingDate (d x : Nat) :
    is_trading_day ⟨d, x⟩ = tradingDate d := by
  rw [Bool.eq_iff_iff]
  simp [is_trading_day, tradingDate, is_weekend, is_market_holiday]

theorem nextOpenScan_eq :
    ∀ (fuel : Nat) (c : ETDateTime),
      nextOpenScan c fuel
        = ((List.range fuel).find? fun i => tradingDate (c.day + 1 + i)).map
            fun i => (⟨c.day + 1 + i, MARKET_OPEN⟩ : ETDateTime)
  | 0, _ => rfl
  | fuel + 1, c => by
    rw [nextOpenScan, is_trading_day_eq_tradingDate, List.range_succ_eq_map]
    cases ht : tradingDate (c.day + 1) with
    | true =>
      rw [if_pos rfl]
      rw [List.find?_cons_of_pos _ (by simpa using ht)]
      simp
    | false =>
      rw [if_neg (by simp)]
      rw [List.find?_cons_of_neg _ (by simp [ht])]
      rw [List.find?_map, nextOpenScan_eq fuel ⟨c.day + 1, c.tod⟩]
      have hp : ((fun i => tradingDate (c.day + 1 + i)) ∘ Nat.succ)
          = fun i => tradingDate (c.day + 1 + 1 + i) := by
        funext i
        simp only [Function.comp_apply]
        exact congrArg tradingDate (by omega)
      have hf : ((fun i => (⟨c.day + 1 + i, MARKET_OPEN⟩ : ETDateTime)) ∘ Nat.succ)
          = fun i => (⟨c.day + 1 + 1 + i, MARKET_OPEN⟩ : ETDateTime) := by
        funext i
        simp only [Function.comp_apply]
        exact congrArg (fun d => (⟨d, MARKET_OPEN⟩ : ETDateTime)) (by omega)
      rw [hp, Option.map_map, hf]

/-- C8: `_get_next_market_open` returns today's open instant when the
instant is before today's open on a trading day, and otherwise the open
instant of the first non-weekend, non-holiday date among the next 10
calendar dates, returning `none` (not raising or looping) when the 10-day
scan finds no trading date. -/
theorem C8_next_market_open (dt : ETDateTime) :
    get_next_market_open dt = nextOpenSpec dt := by
  unfold get_next_market_open nextOpenSpec
  by_cases h1 : dt.tod < MARKET_OPEN
  · by_cases h2 : is_trading_day dt = true
    · rw [if_pos ⟨h1, h2⟩, if_pos ⟨h2, h1⟩]
    · rw [if_neg (by simp [h2]), if_neg (by simp [h2])]
      exact nextOpenScan_eq 10 dt
  · rw [if_neg (by simp [h1]), if_neg (by simp [h1])]
    exact nextOpenScan_eq 10 dt

/-- C4: `preload_historical_data` stores every supplied bar with no session
gating (also bars timestamped outside regular hours), growing the window by
exactly the number of bars up to the capacity, tagging every stored bar
`is_preloaded = true`, and recording the symbol in the preloaded list. -/
theorem C4_preload_bypasses_gate (s : StreamDataManager) (t : String) (df : List Bar)
    (h : s.get_buffer_size t ≤ s.max_points) :
    (s.preload_historical_data t df).bufferOf t
        = takeRight s.max_points (s.bufferOf t ++ df.map storedOfBar)
      ∧ (s.preload_historical_data t df).get_buffer_size t
          = min (s.get_buffer_size t + df.length) s.max_points
      ∧ ((df.map storedOfBar).all fun p => p.is_preloaded) = true
      ∧ (s.preload_historical_data t df).preloaded_tickers
          = s.preloaded_tickers ++ [t] := by
  have hb : s.bufferOf t = takeRight s.max_points (s.bufferOf t) :=
    (takeRight_eq_self (by rwa [get_buffer_size_eq_length_bufferOf] at h)).symm
  have h1 := preload_bufferOf_self s t df (s.bufferOf t) hb
  refine ⟨h1, ?_, ?_, ?_⟩
  · rw [get_buffer_size_eq_length_bufferOf, h1, length_takeRight, List.length_append,
      List.length_map, get_buffer_size_eq_length_bufferOf]
  · simp [List.all_eq_true, storedOfBar]
  · simp only [preload_historical_data, ensureTicker_preloaded]

/-- Witness for C4: preloading one bar timestamped 22:00 Eastern (outside
regular hours) into a fresh manager stores it anyway. -/
theorem C4_preload_bypasses_gate_witness :
    (init 600).get_buffer_size "AAPL" ≤ (init 600).max_points
      ∧ (((init 600).preload_historical_data "AAPL"
              [⟨some ⟨daysFromCivil 2026 1 30, 79200⟩, 5⟩]).bufferOf "AAPL"
            = takeRight (init 600).max_points ((init 600).bufferOf "AAPL"
                ++ [(⟨some ⟨daysFromCivil 2026 1 30, 79200⟩, 5⟩ : Bar)].map storedOfBar)
          ∧ ((init 600).preload_historical_data "AAPL"
              [⟨some ⟨daysFromCivil 2026 1 30, 79200⟩, 5⟩]).get_buffer_size "AAPL"
            = min ((init 600).get_buffer_size "AAPL" + 1) (init 600).max_points
          ∧ (([(⟨some ⟨daysFromCivil 2026 1 30, 79200⟩, 5⟩ : Bar)].map storedOfBar).all
              fun p => p.is_preloaded) = true
          ∧ ((init 600).preload_historical_data "AAPL"
              [⟨some ⟨daysFromCivil 2026 1 30, 79200⟩, 5⟩]).preloaded_tickers
            = (init 600).preloaded_tickers ++ ["AAPL"]) :=
  ⟨by decide,
   C4_preload_bypasses_gate (init 600) "AAPL"
     [⟨some ⟨daysFromCivil 2026 1 30, 79200⟩, 5⟩] (by decide)⟩

theorem ensureTicker_countOf (s : StreamDataManager) (t : String)
    (hcons : s.consistentAt t) : (s.ensureTicker t).countOf t = s.countOf t := by
  unfold ensureTicker
  split
  · rfl
  · next h =>
    have h1 : s.data_buffers.lookup t = none := by
      cases hx : s.data_buffers.lookup t <;> simp [hx] at h ⊢
    simp [countOf, lookup_setKey_self, hcons h1]

theorem ensureTicker_get_buffer_size (s : StreamDataManager) (t : String) :
    (s.ensureTicker t).get_buffer_size t = s.get_buffer_size t := by
  rw [get_buffer_size_eq_length_bufferOf, get_buffer_size_eq_length_bufferOf,
    ensureTicker_bufferOf]

theorem gateDrops_of_timestamp_et (data : InPoint) (ts : ETDateTime)
    (hts : (mergeTs data).timestamp_et = some ts) :
    gateDrops data = ! MarketHours.is_market_open ts := by
  simp [gateDrops, hts]

/-- C3: a live point carrying an Eastern timestamp is stored (and counted)
by `add_data_point` exactly when its session classification is `REGULAR`;
for a point classifying outside regular hours the window, the per-symbol
counter and the total counter are all left unchanged. -/
theorem C3_gate_drops_nonregular (s : StreamDataManager) (t : String) (data : InPoint)
    (ts : ETDateTime) (hts : (mergeTs data).timestamp_et = some ts)
    (hcons : s.consistentAt t) :
    (s.add_data_point t data).bufferOf t
        = (if MarketHours.is_market_open ts
           then appendCap s.max_points (s.bufferOf t) (storedOfLive (mergeTs data))
           else s.bufferOf t)
      ∧ (s.add_data_point t data).countOf t
          = s.countOf t + (if MarketHours.is_market_open ts then 1 else 0)
      ∧ (s.add_data_point t data).total_messages
          = s.total_messages + (if MarketHours.is_market_open ts then 1 else 0)
      ∧ (MarketHours.is_market_open ts = false →
          (s.add_data_point t data).get_buffer_size t = s.get_buffer_size t) := by
  have hgate := gateDrops_of_timestamp_et data ts hts
  cases hm : MarketHours.is_market_open ts with
  | false =>
    have hdrop : gateDrops data = true := by rw [hgate, hm]; rfl
    have heq : s.add_data_point t data = s.ensureTicker t := by
      simp [add_data_point, hdrop]
    rw [heq]
    refine ⟨?_, ?_, ?_, fun _ => ensureTicker_get_buffer_size s t⟩
    · simp [ensureTicker_bufferOf]
    · simp [ensureTicker_countOf s t hcons]
    · simp [ensureTicker_total]
  | true =>
    have hkeep : gateDrops data = false := by rw [hgate, hm]; rfl
    have hb := ensureTicker_bufferOf s t
    have hc := ensureTicker_countOf s t hcons
    refine ⟨?_, ?_, ?_, by simp [hm]⟩
    · simp only [add_data_point, hkeep, Bool.false_eq_true, if_false, bufferOf,
        lookup_setKey_self, Option.getD_some, ensureTicker_max_points, hm, if_true]
      rw [show (List.lookup t (s.ensureTicker t).data_buffers).getD [] = s.bufferOf t by
        simpa [bufferOf] using hb]
      simp [bufferOf]
    · simp only [add_data_point, hkeep, Bool.false_eq_true, if_false, countOf,
        lookup_setKey_self, Option.getD_some, hm, if_true]
      rw [show (List.lookup t (s.ensureTicker t).messages_per_ticker).getD 0 = s.countOf t by
        simpa [countOf] using hc]
      simp [countOf]
    · simp [add_data_point, hkeep, ensureTicker_total, hm]

/-- Witness for C3 at a fresh manager and a point timestamped 22:00 Eastern
on trading day 2026-01-30: the point is dropped and nothing changes. -/
theorem C3_gate_drops_nonregular_witness :
    (mergeTs ⟨some ⟨daysFromCivil 2026 1 30, 79200⟩, none, 7⟩).timestamp_et
        = some ⟨daysFromCivil 2026 1 30, 79200⟩
      ∧ (init 600).consistentAt "AAPL"
      ∧ MarketHours.is_market_open ⟨daysFromCivil 2026 1 30, 79200⟩ = false
      ∧ (((init 600).add_data_point "AAPL"
            ⟨some ⟨daysFromCivil 2026 1 30, 79200⟩, none, 7⟩).get_buffer_size "AAPL"
          = (init 600).get_buffer_size "AAPL") :=
  ⟨by decide, fun _ => rfl, by decide,
   (C3_gate_drops_nonregular (init 600) "AAPL"
      ⟨some ⟨daysFromCivil 2026 1 30, 79200⟩, none, 7⟩
      ⟨daysFromCivil 2026 1 30, 79200⟩ (by decide) (fun _ => rfl)).2.2.2 (by decide)⟩

/-- Counterexample to C6: a live point whose dict has no timestamp at all
is not dropped with an error — `add_data_point` silently stores it in the
window (as a live point) and counts it. -/
theorem C6_missing_timestamp_cex :
    ((init 600).add_data_point "AAPL" ⟨none, none, 7⟩).get_buffer_size "AAPL" = 1
      ∧ ((init 600).add_data_point "AAPL" ⟨none, none, 7⟩).get_latest_point "AAPL"
          = some ⟨none, false, 7⟩
      ∧ ((init 600).add_data_point "AAPL" ⟨none, none, 7⟩).total_messages = 1 := by
  decide

/-- C6 (amended): a live point whose timestamp is absent (and with no
pre-existing `timestamp_et` entry) bypasses the session gate entirely: it
is silently stored in the window as a live point and counted, rather than
being dropped with an `InvalidTimestamp` failure. -/
theorem C6_missing_timestamp_stored (s : StreamDataManager) (t : String) (data : InPoint)
    (h1 : data.timestamp = none) (h2 : data.timestamp_et = none)
    (hcons : s.consistentAt t) :
    (s.add_data_point t data).bufferOf t
        = appendCap s.max_points (s.bufferOf t) ⟨none, false, data.payload⟩
      ∧ (s.add_data_point t data).countOf t = s.countOf t + 1
      ∧ (s.add_data_point t data).total_messages = s.total_messages + 1 := by
  have hmerge : mergeTs data = data := by simp [mergeTs, h1]
  have hkeep : gateDrops data = false := by simp [gateDrops, hmerge, h2]
  have hstored : storedOfLive (mergeTs data) = ⟨none, false, data.payload⟩ := by
    simp [storedOfLive, hmerge, h2]
  have hb := ensureTicker_bufferOf s t
  have hc := ensureTicker_countOf s t hcons
  refine ⟨?_, ?_, ?_⟩
  · simp only [add_data_point, hkeep, Bool.false_eq_true, if_false, bufferOf,
      lookup_setKey_self, Option.getD_some, ensureTicker_max_points, hstored]
    rw [show (List.lookup t (s.ensureTicker t).data_buffers).getD [] = s.bufferOf t by
      simpa [bufferOf] using hb]
    simp [bufferOf]
  · simp only [add_data_point, hkeep, Bool.false_eq_true, if_false, countOf,
      lookup_setKey_self, Option.getD_some]
    rw [show (List.lookup t (s.ensureTicker t).messages_per_ticker).getD 0 = s.countOf t by
      simpa [countOf] using hc]
    simp [countOf]
  · simp [add_data_point, hkeep, ensureTicker_total]

/-- Witness for the amended C6 on a fresh manager. -/
theorem C6_missing_timestamp_stored_witness :
    (⟨none, none, 7⟩ : InPoint).timestamp = none
      ∧ (⟨none, none, 7⟩ : InPoint).timestamp_et = none
      ∧ (init 600).consistentAt "AAPL"
      ∧ (((init 600).add_data_point "AAPL" ⟨none, none, 7⟩).bufferOf "AAPL"
            = appendCap (init 600).max_points ((init 600).bufferOf "AAPL") ⟨none, false, 7⟩
          ∧ ((init 600).add_data_point "AAPL" ⟨none, none, 7⟩).countOf "AAPL"
            = (init 600).countOf "AAPL" + 1
          ∧ ((init 600).add_data_point "AAPL" ⟨none, none, 7⟩).total_messages
            = (init 600).total_messages + 1) :=
  ⟨rfl, rfl, fun _ => rfl,
   C6_missing_timestamp_stored (init 600) "AAPL" ⟨none, none, 7⟩ rfl rfl fun _ => rfl⟩

/-- Counterexample to C7: the buffer status of a never-touched symbol has
no `preloaded_count` entry at all (the unknown-ticker dict omits that key),
so it does not report a zero preloaded count. -/
theorem C7_missing_preloaded_count_cex :
    ((init 600).get_buffer_status "MSFT").preloaded_count = none
      ∧ ¬ ((init 600).get_buffer_status "MSFT").preloaded_count = some 0 := by
  decide

/-- C7 (amended): every reader on a never-touched symbol returns the
documented empty/zero value without error — empty frame, no latest point,
size 0, and the zero status (size 0, percentage 0, not full, not
preloaded, live count 0) — except that the status dict carries no
`preloaded_count` entry. -/
theorem C7_empty_reads (s : StreamDataManager) (t : String)
    (h1 : s.data_buffers.lookup t = none) :
    s.get_dataframe t = []
      ∧ s.get_latest_point t = none
      ∧ s.get_buffer_size t = 0
      ∧ s.get_buffer_status t = ⟨0, s.max_points, 0, false, false, none, 0⟩ := by
  refine ⟨?_, ?_, ?_, ?_⟩ <;>
    simp [get_dataframe, get_latest_point, get_buffer_size, get_buffer_status, h1]

/-- Witness for the amended C7 on a fresh manager. -/
theorem C7_empty_reads_witness :
    (init 600).data_buffers.lookup "MSFT" = none
      ∧ ((init 600).get_dataframe "MSFT" = []
          ∧ (init 600).get_latest_point "MSFT" = none
          ∧ (init 600).get_buffer_size "MSFT" = 0
          ∧ (init 600).get_buffer_status "MSFT"
              = ⟨0, (init 600).max_points, 0, false, false, none, 0⟩) :=
  ⟨rfl, C7_empty_reads (init 600) "MSFT" rfl⟩

/-- Counterexample to C9: preloading the same symbol twice and then calling
`clear_ticker` once leaves the symbol in the preloaded list (Python
`list.remove` deletes only the first occurrence), so its buffer status
still reports it as preloaded. -/
theorem C9_duplicate_preload_cex :
    ((((init 600).preload_historical_data "AAPL" []).preload_historical_data "AAPL"
          []).clear_ticker "AAPL").preloaded_tickers = ["AAPL"]
      ∧ (((((init 600).preload_historical_data "AAPL" []).preload_historical_data "AAPL"
            []).clear_ticker "AAPL").get_buffer_status "AAPL").preloaded = true := by
  decide

/-- C9 (amended): `clear_ticker` empties the symbol's window and removes
one occurrence of the symbol from the preloaded list — so after preloads
that marked it at most once it is no longer marked preloaded — while both
message counters are left untouched (only `clear_all` resets them). -/
theorem C9_clear_ticker (s : StreamDataManager) (t : String) :
    (s.clear_ticker t).bufferOf t = []
      ∧ (s.clear_ticker t).preloaded_tickers = s.preloaded_tickers.erase t
      ∧ (s.clear_ticker t).messages_per_ticker = s.messages_per_ticker
      ∧ (s.clear_ticker t).total_messages = s.total_messages
      ∧ (s.preloaded_tickers.count t ≤ 1 → t ∉ (s.clear_ticker t).preloaded_tickers) := by
  have hpre : (s.clear_ticker t).preloaded_tickers = s.preloaded_tickers.erase t := by
    simp only [clear_ticker]
    split
    · rfl
    · next h =>
      have hmem : t ∉ s.preloaded_tickers := by
        intro hm
        exact h (List.elem_iff.mpr hm)
      rw [List.erase_of_not_mem hmem]
  refine ⟨?_, hpre, rfl, rfl, ?_⟩
  · simp only [clear_ticker, bufferOf]
    split
    · next h =>
      simp [lookup_setKey_self]
    · next h =>
      have h1 : s.data_buffers.lookup t = none := by
        cases hx : s.data_buffers.lookup t <;> simp [hx] at h ⊢
      simp [h1]
  · intro hcount hmem
    rw [hpre] at hmem
    have := List.count_pos_iff.mpr hmem
    rw [List.count_erase_self] at this
    omega

/-- Witness for the amended C9: a single preload then a clear leaves the
symbol unmarked. -/
theorem C9_clear_ticker_witness :
    ((init 600).preload_historical_data "AAPL" []).preloaded_tickers.count "AAPL" ≤ 1
      ∧ "AAPL" ∉ (((init 600).preload_historical_data "AAPL"
          []).clear_ticker "AAPL").preloaded_tickers :=
  ⟨by decide,
   (C9_clear_ticker ((init 600).preload_historical_data "AAPL" []) "AAPL").2.2.2.2
     (by decide)⟩

theorem lookup_append_right {m1 m2 : List (String × α)} {k : String}
    (h : m1.lookup k = none) : (m1 ++ m2).lookup k = m2.lookup k := by
  induction m1 with
  | nil => rfl
  | cons kv rest ih =>
    obtain ⟨k1, v1⟩ := kv
    rw [List.lookup_cons] at h
    rw [List.cons_append, List.lookup_cons]
    cases hc : (k == k1) with
    | true => rw [hc] at h; simp at h
    | false =>
      rw [hc] at h
      exact ih h

theorem lookup_map_value (g : β → γ) (m : List (String × β)) (k : String) :
    (m.map fun kv => (kv.1, g kv.2)).lookup k = (m.lookup k).map g := by
  induction m with
  | nil => rfl
  | cons kv rest ih =>
    obtain ⟨k1, v1⟩ := kv
    simp only [List.map_cons, List.lookup_cons]
    cases hc : (k == k1) <;> simp [hc, ih]

/-- C10: a live point for a brand-new symbol that the session gate rejects
still creates that symbol's empty window and zero counter (the symbol then
shows in `get_statistics` as an active ticker of buffer size 0), while
every other part of the state — other symbols' windows and counters, the
total counter, the preloaded list — is unchanged. -/
theorem C10_rejected_point_creates_window (s : StreamDataManager) (t : String)
    (data : InPoint) (ts : ETDateTime)
    (hnew : s.data_buffers.lookup t = none)
    (hcons : s.consistentAt t)
    (hts : (mergeTs data).timestamp_et = some ts)
    (hrej : MarketHours.is_market_open ts = false) :
    (s.add_data_point t data).data_buffers = s.data_buffers ++ [(t, [])]
      ∧ (s.add_data_point t data).messages_per_ticker = s.messages_per_ticker ++ [(t, 0)]
      ∧ (s.add_data_point t data).countOf t = 0
      ∧ (s.add_data_point t data).total_messages = s.total_messages
      ∧ (s.add_data_point t data).preloaded_tickers = s.preloaded_tickers
      ∧ (∀ t2, t2 ≠ t →
          (s.add_data_point t data).data_buffers.lookup t2 = s.data_buffers.lookup t2
            ∧ (s.add_data_point t data).messages_per_ticker.lookup t2
                = s.messages_per_ticker.lookup t2)
      ∧ (s.add_data_point t data).get_statistics.active_tickers
          = s.get_statistics.active_tickers + 1
      ∧ (s.add_data_point t data).get_statistics.buffer_sizes.lookup t = some 0 := by
  have hdrop : gateDrops data = true := by
    rw [gateDrops_of_timestamp_et data ts hts, hrej]
    rfl
  have heq : s.add_data_point t data = s.ensureTicker t := by
    simp [add_data_point, hdrop]
  have hens : s.ensureTicker t
      = { s with data_buffers := setKey s.data_buffers t [],
                 messages_per_ticker := setKey s.messages_per_ticker t 0 } := by
    unfold ensureTicker
    rw [if_neg (by simp [hnew])]
  have hdb : (s.add_data_point t data).data_buffers = s.data_buffers ++ [(t, [])] := by
    rw [heq, hens]
    exact setKey_of_lookup_none [] hnew
  have hmp : (s.add_data_point t data).messages_per_ticker
      = s.messages_per_ticker ++ [(t, 0)] := by
    rw [heq, hens]
    exact setKey_of_lookup_none 0 (hcons hnew)
  refine ⟨hdb, hmp, ?_, ?_, ?_, ?_, ?_, ?_⟩
  · rw [heq, hens]
    simp [countOf, lookup_setKey_self]
  · rw [heq, hens]
  · rw [heq, hens]
  · intro t2 ht2
    rw [heq, hens]
    exact ⟨lookup_setKey_ne s.data_buffers [] ht2, lookup_setKey_ne s.messages_per_ticker 0 ht2⟩
  · simp [get_statistics, hdb]
  · simp only [get_statistics, hdb, lookup_map_value]
    rw [lookup_append_right hnew]
    simp [List.lookup_cons]

/-- Witness for C10: a fresh manager and a point timestamped 22:00 Eastern
on trading day 2026-01-30. -/
theorem C10_rejected_point_creates_window_witness :
    (init 600).data_buffers.lookup "AAPL" = none
      ∧ (init 600).consistentAt "AAPL"
      ∧ (mergeTs ⟨some ⟨daysFromCivil 2026 1 30, 79200⟩, none, 7⟩).timestamp_et
          = some ⟨daysFromCivil 2026 1 30, 79200⟩
      ∧ MarketHours.is_market_open ⟨daysFromCivil 2026 1 30, 79200⟩ = false
      ∧ ((init 600).add_data_point "AAPL"
            ⟨some ⟨daysFromCivil 2026 1 30, 79200⟩, none, 7⟩).data_buffers
          = (init 600).data_buffers ++ [("AAPL", [])]
      ∧ ((init 600).add_data_point "AAPL"
            ⟨some ⟨daysFromCivil 2026 1 30, 79200⟩, none, 7⟩).get_statistics.active_tickers
          = (init 600).get_statistics.active_tickers + 1 :=
  ⟨rfl, fun _ => rfl, by decide, by decide,
   (C10_rejected_point_creates_window (init 600) "AAPL"
      ⟨some ⟨daysFromCivil 2026 1 30, 79200⟩, none, 7⟩
      ⟨daysFromCivil 2026 1 30, 79200⟩ rfl (fun _ => rfl) (by decide) (by decide)).1,
   (C10_rejected_point_creates_window (init 600) "AAPL"
      ⟨some ⟨daysFromCivil 2026 1 30, 79200⟩, none, 7⟩
      ⟨daysFromCivil 2026 1 30, 79200⟩ rfl (fun _ => rfl) (by decide)
      (by decide)).2.2.2.2.2.2.1⟩

theorem tsRel_total : ∀ a b : StoredPoint, tsRel a b ∨ tsRel b a := by
  intro a b
  unfold tsRel
  cases ha : a.timestamp_et with
  | none => cases hb : b.timestamp_et <;> simp [tsLe]
  | some x =>
    cases hb : b.timestamp_et with
    | none => simp [tsLe]
    | some y =>
      simp only [tsLe, etLe, decide_eq_true_eq]
      omega

theorem tsRel_trans : ∀ a b c : StoredPoint, tsRel a b → tsRel b c → tsRel a c := by
  intro a b c h1 h2
  unfold tsRel at h1 h2 ⊢
  cases ha : a.timestamp_et with
  | none =>
    cases hb : b.timestamp_et with
    | none =>
      rw [hb] at h2
      exact h2
    | some y =>
      rw [ha, hb] at h1
      simp [tsLe] at h1
  | some x =>
    cases hc : c.timestamp_et with
    | none => simp [tsLe]
    | some z =>
      cases hb : b.timestamp_et with
      | none =>
        rw [hb, hc] at h2
        simp [tsLe] at h2
      | some y =>
        rw [ha, hb] at h1
        rw [hb, hc] at h2
        simp only [tsLe, etLe, decide_eq_true_eq] at h1 h2 ⊢
        omega

theorem tsLtRel_imp_tsRel : ∀ {a b : StoredPoint}, tsLtRel a b → tsRel a b := by
  intro a b h
  rcases tsRel_total a b with h1 | h1
  · exact h1
  · rw [tsRel, h] at h1
    simp at h1

/-- Counterexample to C5: preloading two bars whose timestamps decrease
makes `get_dataframe` return them in timestamp order, not insertion order —
the read re-sorts the window by timestamp. -/
theorem C5_read_resorts_cex :
    ((init 600).preload_historical_data "AAPL"
          [⟨some ⟨daysFromCivil 2026 1 30, 200⟩, 1⟩,
           ⟨some ⟨daysFromCivil 2026 1 30, 100⟩, 2⟩]).bufferOf "AAPL"
        = [⟨some ⟨daysFromCivil 2026 1 30, 200⟩, true, 1⟩,
           ⟨some ⟨daysFromCivil 2026 1 30, 100⟩, true, 2⟩]
      ∧ ((init 600).preload_historical_data "AAPL"
          [⟨some ⟨daysFromCivil 2026 1 30, 200⟩, 1⟩,
           ⟨some ⟨daysFromCivil 2026 1 30, 100⟩, 2⟩]).get_dataframe "AAPL"
        = [⟨some ⟨daysFromCivil 2026 1 30, 100⟩, true, 2⟩,
           ⟨some ⟨daysFromCivil 2026 1 30, 200⟩, true, 1⟩]
      ∧ ((init 600).preload_historical_data "AAPL"
          [⟨some ⟨daysFromCivil 2026 1 30, 200⟩, 1⟩,
           ⟨some ⟨daysFromCivil 2026 1 30, 100⟩, 2⟩]).get_dataframe "AAPL"
        ≠ ((init 600).preload_historical_data "AAPL"
          [⟨some ⟨daysFromCivil 2026 1 30, 200⟩, 1⟩,
           ⟨some ⟨daysFromCivil 2026 1 30, 100⟩, 2⟩]).bufferOf "AAPL" := by
  refine ⟨by decide, by decide, by decide⟩

/-- C5 (amended): `get_dataframe` returns a fresh sequence holding exactly
the window contents (a permutation) re-sorted ascending by timestamp; in
particular, whenever the stored timestamps are strictly increasing in
insertion order — the normal case for a gated live feed — the snapshot
equals the insertion order. -/
theorem C5_snapshot_sorted_permutation (s : StreamDataManager) (t : String) :
    (s.get_dataframe t).Perm (s.bufferOf t)
      ∧ List.Sorted tsRel (s.get_dataframe t)
      ∧ (List.Pairwise tsLtRel (s.bufferOf t) → s.get_dataframe t = s.bufferOf t) := by
  haveI : IsTotal StoredPoint tsRel := ⟨tsRel_total⟩
  haveI : IsTrans StoredPoint tsRel := ⟨fun a b c => tsRel_trans a b c⟩
  cases hx : s.data_buffers.lookup t with
  | none =>
    have hdf : s.get_dataframe t = [] := by simp [get_dataframe, hx]
    have hbuf : s.bufferOf t = [] := by simp [bufferOf, hx]
    rw [hdf, hbuf]
    exact ⟨List.Perm.refl [], List.sorted_nil, fun _ => rfl⟩
  | some buf =>
    have hdf : s.get_dataframe t = List.insertionSort tsRel buf := by
      simp [get_dataframe, hx]
    have hbuf : s.bufferOf t = buf := by simp [bufferOf, hx]
    rw [hdf, hbuf]
    refine ⟨List.perm_insertionSort tsRel buf, List.sorted_insertionSort tsRel buf, ?_⟩
    intro hp
    exact List.Sorted.insertionSort_eq (hp.imp fun h => tsLtRel_imp_tsRel h)

/-- Witness for the amended C5: with strictly increasing preloaded
timestamps the snapshot equals the insertion order. -/
theorem C5_snapshot_sorted_permutation_witness :
    List.Pairwise tsLtRel
        (((init 600).preload_historical_data "AAPL"
            [⟨some ⟨daysFromCivil 2026 1 30, 100⟩, 1⟩,
             ⟨some ⟨daysFromCivil 2026 1 30, 200⟩, 2⟩]).bufferOf "AAPL")
      ∧ ((init 600).preload_historical_data "AAPL"
            [⟨some ⟨daysFromCivil 2026 1 30, 100⟩, 1⟩,
             ⟨some ⟨daysFromCivil 2026 1 30, 200⟩, 2⟩]).get_dataframe "AAPL"
        = ((init 600).preload_historical_data "AAPL"
            [⟨some ⟨daysFromCivil 2026 1 30, 100⟩, 1⟩,
             ⟨some ⟨daysFromCivil 2026 1 30, 200⟩, 2⟩]).bufferOf "AAPL" :=
  ⟨by decide,
   (C5_snapshot_sorted_permutation
      ((init 600).preload_historical_data "AAPL"
        [⟨some ⟨daysFromCivil 2026 1 30, 100⟩, 1⟩,
         ⟨some ⟨daysFromCivil 2026 1 30, 200⟩, 2⟩]) "AAPL").2.2 (by decide)⟩

end SpxStreaming
